import Mathlib

/-!
# Verification of the soketto websocket library against its specification

This development embeds the handshake codec, the connection send path and
the close-answer logic of the soketto source tree (`src/handshake.rs`,
`src/handshake/client.rs`, `src/handshake/server.rs`, `src/connection.rs`)
as executable Lean definitions and proves the specified properties about
them.

Byte strings are modelled as `List Nat` (each element a byte value).
Rust `&str` values are likewise modelled as their UTF-8 byte sequences,
except where string operations (`trim`, `split`) act on Unicode scalar
values, in which case the bytes are decoded first (`utf8Decode`), exactly
as the source does via `std::str::from_utf8`.

The `base` and `extension` modules of the crate are declared in
`src/lib.rs` but their files are not part of this source snapshot; the
frame header, masking and reserved-bit bookkeeping they provide are
modelled from the specification (section 4.1) and marked as such below.
-/

namespace Soketto

set_option autoImplicit false
set_option maxRecDepth 400000

/-- The UTF-8 bytes of an ASCII string literal, used to transcribe the
byte-string constants of the source. -/
def str (s : String) : List Nat :=
  s.data.map Char.toNat

-- Basic ASCII helpers ---------------------------------------------------

/-- Rust `u8::to_ascii_lowercase`. -/
def asciiLower (b : Nat) : Nat :=
  if 65 ≤ b ∧ b ≤ 90 then b + 32 else b

/-- Rust `eq_ignore_ascii_case` on byte strings (`str` and `[u8]` use the
same byte-wise ASCII case folding). -/
def eqIgnoreAsciiCase (a b : List Nat) : Bool :=
  a.map asciiLower == b.map asciiLower

/-- Rust `char::is_whitespace` (the Unicode `White_Space` property),
restricted to scalar values, used by `str::trim`. -/
def isRustWhitespace (c : Nat) : Bool :=
  c == 9 || c == 10 || c == 11 || c == 12 || c == 13 || c == 32 ||
  c == 133 || c == 160 || c == 5760 || (8192 ≤ c && c ≤ 8202) ||
  c == 8232 || c == 8233 || c == 8239 || c == 8287 || c == 12288

/-- Rust `str::trim` on a list of Unicode scalar values. -/
def trimWs (l : List Nat) : List Nat :=
  ((l.dropWhile isRustWhitespace).reverse.dropWhile isRustWhitespace).reverse

/-- Rust `str::trim_matches('"')`: strip all leading and trailing
double-quote characters. -/
def trimQuotes (l : List Nat) : List Nat :=
  ((l.dropWhile (fun c => c == 34)).reverse.dropWhile (fun c => c == 34)).reverse

-- UTF-8 decoding --------------------------------------------------------

/-- Decode a UTF-8 byte sequence into its Unicode scalar values, or `none`
if the bytes are not valid UTF-8.  This models Rust `std::str::from_utf8`:
the accepted byte sequences are exactly those of RFC 3629 (no overlongs,
no surrogates, scalar values ≤ U+10FFFF). -/
def utf8Decode : List Nat → Option (List Nat)
  | [] => some []
  | b :: rest =>
    if b < 128 then
      (utf8Decode rest).map (fun l => b :: l)
    else if b < 194 then
      none
    else if b < 224 then
      match rest with
      | c :: rest2 =>
        if 128 ≤ c ∧ c < 192 then
          (utf8Decode rest2).map (fun l => ((b - 192) * 64 + (c - 128)) :: l)
        else none
      | _ => none
    else if b < 240 then
      match rest with
      | c :: d :: rest2 =>
        let lo := if b = 224 then 160 else 128
        let hi := if b = 237 then 160 else 192
        if lo ≤ c ∧ c < hi ∧ 128 ≤ d ∧ d < 192 then
          (utf8Decode rest2).map
            (fun l => ((b - 224) * 4096 + (c - 128) * 64 + (d - 128)) :: l)
        else none
      | _ => none
    else if b < 245 then
      match rest with
      | c :: d :: e :: rest2 =>
        let lo := if b = 240 then 144 else 128
        let hi := if b = 244 then 144 else 192
        if lo ≤ c ∧ c < hi ∧ 128 ≤ d ∧ d < 192 ∧ 128 ≤ e ∧ e < 192 then
          (utf8Decode rest2).map
            (fun l => ((b - 240) * 262144 + (c - 128) * 4096 +
                       (d - 128) * 64 + (e - 128)) :: l)
        else none
      | _ => none
    else none

/-- Validity of a byte sequence as UTF-8 (success of `std::str::from_utf8`). -/
def utf8Valid (l : List Nat) : Bool :=
  (utf8Decode l).isSome

-- SHA-1 -----------------------------------------------------------------

/-- Truncation to a 32-bit word. -/
def w32 (n : Nat) : Nat := n % 4294967296

/-- 32-bit left rotation by `s` places of a word `n < 2^32`. -/
def rotl (s n : Nat) : Nat :=
  w32 (n * 2 ^ s) + n / 2 ^ (32 - s)

/-- Group a big-endian byte list into 32-bit words (4 bytes each,
trailing partial groups discarded; inputs are whole blocks). -/
def toWords : List Nat → List Nat
  | a :: b :: c :: d :: rest => (((a * 256 + b) * 256 + c) * 256 + d) :: toWords rest
  | _ => []

/-- SHA-1 message padding: append `0x80`, zero bytes and the 64-bit
big-endian bit length so the total length is a multiple of 64 bytes. -/
def sha1pad (msg : List Nat) : List Nat :=
  let len := msg.length
  let bitlen := len * 8
  let zeros := (120 - (len + 1) % 64) % 64
  msg ++ 128 :: List.replicate zeros 0 ++
    [bitlen / 2 ^ 56 % 256, bitlen / 2 ^ 48 % 256, bitlen / 2 ^ 40 % 256,
     bitlen / 2 ^ 32 % 256, bitlen / 2 ^ 24 % 256, bitlen / 2 ^ 16 % 256,
     bitlen / 2 ^ 8 % 256, bitlen % 256]

/-- Extend the 16 words of a block to 80 schedule words; the accumulator
holds the words generated so far in reverse order. -/
def sha1extend : Nat → List Nat → List Nat
  | 0, acc => acc.reverse
  | n + 1, acc =>
    let w := rotl 1 (Nat.xor (Nat.xor (acc.getD 2 0) (acc.getD 7 0))
                             (Nat.xor (acc.getD 13 0) (acc.getD 15 0)))
    sha1extend n (w :: acc)

/-- The SHA-1 round function for round `t`. -/
def sha1f (t b c d : Nat) : Nat :=
  if t < 20 then Nat.lor (Nat.land b c) (Nat.land (Nat.xor b 4294967295) d)
  else if t < 40 then Nat.xor (Nat.xor b c) d
  else if t < 60 then Nat.lor (Nat.lor (Nat.land b c) (Nat.land b d)) (Nat.land c d)
  else Nat.xor (Nat.xor b c) d

/-- The SHA-1 round constant for round `t`. -/
def sha1k (t : Nat) : Nat :=
  if t < 20 then 1518500249
  else if t < 40 then 1859775393
  else if t < 60 then 2400959708
  else 3395469782

/-- Run the 80 SHA-1 rounds over the schedule words. -/
def sha1rounds : Nat → List Nat → Nat × Nat × Nat × Nat × Nat → Nat × Nat × Nat × Nat × Nat
  | _, [], st => st
  | t, w :: ws, (a, b, c, d, e) =>
    let tmp := w32 (rotl 5 a + sha1f t b c d + e + sha1k t + w)
    sha1rounds (t + 1) ws (tmp, a, rotl 30 b, c, d)

/-- Split a byte list into 64-byte blocks; the first argument is fuel
bounding the number of blocks (structural recursion keeps the definition
kernel-reducible). -/
def chunks64Go : Nat → List Nat → List (List Nat)
  | 0, _ => []
  | _ + 1, [] => []
  | fuel + 1, l => l.take 64 :: chunks64Go fuel (l.drop 64)

/-- Split a (padded) message into 64-byte blocks. -/
def chunks64 (l : List Nat) : List (List Nat) :=
  chunks64Go l.length l

/-- Compress one 64-byte block into the running hash state. -/
def sha1block (st : Nat × Nat × Nat × Nat × Nat) (block : List Nat) :
    Nat × Nat × Nat × Nat × Nat :=
  let (h0, h1, h2, h3, h4) := st
  let ws := sha1extend 64 (toWords block).reverse
  let (a, b, c, d, e) := sha1rounds 0 ws (h0, h1, h2, h3, h4)
  (w32 (h0 + a), w32 (h1 + b), w32 (h2 + c), w32 (h3 + d), w32 (h4 + e))

/-- Serialize a 32-bit word as 4 big-endian bytes. -/
def wordBytes (n : Nat) : List Nat :=
  [n / 2 ^ 24 % 256, n / 2 ^ 16 % 256, n / 2 ^ 8 % 256, n % 256]

/-- SHA-1 of a byte list, producing the 20-byte digest
(the `sha1` crate's `digest().bytes()`). -/
def sha1 (msg : List Nat) : List Nat :=
  let (h0, h1, h2, h3, h4) :=
    (chunks64 (sha1pad msg)).foldl sha1block
      (1732584193, 4023233417, 2562383102, 271733878, 3285377520)
  wordBytes h0 ++ wordBytes h1 ++ wordBytes h2 ++ wordBytes h3 ++ wordBytes h4

-- Base64 ----------------------------------------------------------------

/-- The standard base64 alphabet (`base64::STANDARD`). -/
def base64Digit (n : Nat) : Nat :=
  if n < 26 then 65 + n
  else if n < 52 then 97 + (n - 26)
  else if n < 62 then 48 + (n - 52)
  else if n = 62 then 43
  else 47

/-- Standard base64 encoding with padding (`base64::encode`;
`base64::encode_config_slice` with `base64::STANDARD` produces the same
bytes). -/
def base64Encode : List Nat → List Nat
  | [] => []
  | [a] => [base64Digit (a / 4), base64Digit (a % 4 * 16), 61, 61]
  | [a, b] => [base64Digit (a / 4), base64Digit (a % 4 * 16 + b / 16),
               base64Digit (b % 16 * 4), 61]
  | a :: b :: c :: rest =>
    base64Digit (a / 4) :: base64Digit (a % 4 * 16 + b / 16) ::
    base64Digit (b % 16 * 4 + c / 64) :: base64Digit (c % 64) ::
    base64Encode rest

-- Handshake data model (src/handshake.rs, src/handshake/client.rs, server.rs) --

/-- The RFC 6455 magic GUID (`KEY` in `src/handshake.rs`). -/
def KEY : List Nat := str "258EAFA5-E914-47DA-95CA-C5AB0DC85B11"

def SEC_WEBSOCKET_EXTENSIONS : List Nat := str "Sec-WebSocket-Extensions"

def SEC_WEBSOCKET_PROTOCOL : List Nat := str "Sec-WebSocket-Protocol"

/-- Handshake error cases (`handshake::Error`); payload-carrying external
boxes (`Io`, `Http`, `Extension`, `Utf8`) are modelled without payload. -/
inductive HandshakeError where
  | Io
  | UnsupportedHttpVersion
  | InvalidRequestMethod
  | UnexpectedStatusCode (code : Nat)
  | HeaderNotFound (name : List Nat)
  | UnexpectedHeader (name : List Nat)
  | InvalidSecWebSocketAccept
  | UnsolicitedExtension
  | UnsolicitedProtocol
  | Extension
  | Http
  | Utf8
  deriving DecidableEq

/-- A parsing result (`Parsing` in `src/lib.rs`); the `NeedMore` payload
type is instantiated at `()` as in the handshake codecs. -/
inductive Parsing (T : Type) where
  | Done (value : T) (offset : Nat)
  | NeedMore
  deriving DecidableEq

/-- An HTTP header as produced by the external `httparse` crate: the name
is a string (modelled by its bytes) and the value a raw byte slice. -/
structure HHeader where
  name : List Nat
  value : List Nat
  deriving DecidableEq

/-- The result of the external `httparse::Response::parse` on a complete
response: HTTP minor version, status code and headers.  The byte-level
HTTP parse itself is external to this crate. -/
structure HttpResponse where
  version : Option Nat
  code : Option Nat
  headers : List HHeader
  deriving DecidableEq

/-- The result of the external `httparse::Request::parse` on a complete
request. -/
structure HttpRequest where
  method : Option (List Nat)
  version : Option Nat
  headers : List HHeader
  deriving DecidableEq

/-- An extension parameter (`extension::Param`). -/
structure Param where
  name : List Nat
  value : Option (List Nat)
  deriving DecidableEq

-- Frame codec (spec-modelled: `src/base.rs` is declared in `src/lib.rs`
-- but missing from the source snapshot) ---------------------------------

/-- Modelled from the spec: the 4-bit frame opcode of section 3
(`base::OpCode`, `src/base.rs` missing from the snapshot). -/
inductive OpCode where
  | Continue
  | Text
  | Binary
  | Reserved3
  | Reserved4
  | Reserved5
  | Reserved6
  | Reserved7
  | Close
  | Ping
  | Pong
  | Reserved11
  | Reserved12
  | Reserved13
  | Reserved14
  | Reserved15
  deriving DecidableEq

/-- The numeric value of an opcode. -/
def opcodeVal : OpCode → Nat
  | .Continue => 0
  | .Text => 1
  | .Binary => 2
  | .Reserved3 => 3
  | .Reserved4 => 4
  | .Reserved5 => 5
  | .Reserved6 => 6
  | .Reserved7 => 7
  | .Close => 8
  | .Ping => 9
  | .Pong => 10
  | .Reserved11 => 11
  | .Reserved12 => 12
  | .Reserved13 => 13
  | .Reserved14 => 14
  | .Reserved15 => 15

/-- Modelled from the spec: the frame header of section 3 (`base::Header`,
`src/base.rs` missing from the snapshot).  The mask is 4 bytes. -/
structure Header where
  fin : Bool
  rsv1 : Bool
  rsv2 : Bool
  rsv3 : Bool
  opcode : OpCode
  masked : Bool
  mask : List Nat
  payloadLen : Nat
  deriving DecidableEq

/-- Modelled from the spec: `Header::new` constructs a header with
`fin = true`, the given opcode, no RSV bits and no mask (section 4.6
step 2; `src/base.rs` missing from the snapshot). -/
def Header.new (op : OpCode) : Header :=
  { fin := true, rsv1 := false, rsv2 := false, rsv3 := false,
    opcode := op, masked := false, mask := [0, 0, 0, 0], payloadLen := 0 }

/-- Modelled from the spec: codec state of section 3 (`base::Codec`,
`src/base.rs` missing from the snapshot). -/
structure Codec where
  maxPayloadLen : Nat
  reservedBits : Nat
  deriving DecidableEq

/-- Modelled from the spec: default codec state (256 MiB maximum payload
length, no reserved bits in use). -/
def Codec.default : Codec :=
  { maxPayloadLen := 268435456, reservedBits := 0 }

/-- Modelled from the spec: `add_reserved_bits` ORs the provided bitmask
into the codec's set of accepted RSV bits (section 4.1; `src/base.rs`
missing from the snapshot). -/
def Codec.add_reserved_bits (c : Codec) (m : Nat) : Codec :=
  { c with reservedBits := Nat.lor c.reservedBits m }

/-- Modelled from the spec: payload masking with starting index `i`
(section 4.1: `slice[i] ^= mask[i mod 4]`; `src/base.rs` missing from the
snapshot). -/
def applyMaskFrom (mask : List Nat) : Nat → List Nat → List Nat
  | _, [] => []
  | i, b :: rest => Nat.xor b (mask.getD (i % 4) 0) :: applyMaskFrom mask (i + 1) rest

/-- Modelled from the spec: `apply_mask` XORs every payload byte with the
corresponding mask byte, in place (section 4.1; `src/base.rs` missing from
the snapshot). -/
def applyMask (mask : List Nat) (l : List Nat) : List Nat :=
  applyMaskFrom mask 0 l

/-- The `k`-byte big-endian serialization of `n`. -/
def beBytes (k : Nat) (n : Nat) : List Nat :=
  (List.range k).map (fun i => n / 2 ^ (8 * (k - 1 - i)) % 256)

/-- Modelled from the spec: `encode_header` of section 4.1 (`src/base.rs`
missing from the snapshot): first byte packs FIN/RSV/opcode, second byte
packs MASK and the length code (`126`/`127` select a 2- or 8-byte
big-endian extended length), followed by the 4-byte mask if masked. -/
def encodeHeader (h : Header) : List Nat :=
  let b0 := (if h.fin then 128 else 0) + (if h.rsv1 then 64 else 0) +
            (if h.rsv2 then 32 else 0) + (if h.rsv3 then 16 else 0) + opcodeVal h.opcode
  let lenCode := if h.payloadLen ≤ 125 then h.payloadLen
                 else if h.payloadLen < 65536 then 126 else 127
  let ext := if h.payloadLen ≤ 125 then []
             else if h.payloadLen < 65536 then beBytes 2 h.payloadLen
             else beBytes 8 h.payloadLen
  b0 :: ((if h.masked then 128 else 0) + lenCode) :: ext ++
    (if h.masked then h.mask else [])

-- Extension interface ----------------------------------------------------

/-- The `extension::Extension` trait (external implementations), modelled
as a record of operations over an abstract extension state `σ`.  Stateful
trait methods take and return the state; fallible ones return `Except`
(the concrete boxed error is irrelevant and modelled as `Unit`). -/
structure ExtOps (σ : Type) where
  name : σ → List Nat
  isEnabled : σ → Bool
  reservedBits : σ → Nat
  params : σ → List Param
  configure : σ → List Param → Except Unit σ
  encode : σ → Header → List Nat → Except Unit (σ × Header × List Nat)

-- Header helpers (src/handshake.rs) -------------------------------------

/-- The three accumulator states of `expect_ascii_header`'s fold. -/
inductive HState where
  | Init
  | Name
  | Match
  deriving DecidableEq

/-- Does a header value (as Unicode scalar values) contain, among its
comma-split pieces, one whose trim equals `ours` ignoring ASCII case?
This is the body of the fold in `expect_ascii_header`:
`str::from_utf8(..)?.split(',').find(|v| v.trim().eq_ignore_ascii_case(ours))`. -/
def valueHasToken (ours cps : List Nat) : Bool :=
  (cps.splitOn 44).any (fun v => eqIgnoreAsciiCase (trimWs v) ours)

/-- One step of `expect_ascii_header`'s fold: keep a `Match`, otherwise
UTF-8 decode the header value (failure yields `Error::Utf8`) and look for
the token. -/
def eahStep (ours : List Nat) (result : Except HandshakeError HState) (h : HHeader) :
    Except HandshakeError HState :=
  match result with
  | .ok HState.Match => result
  | _ =>
    match utf8Decode h.value with
    | none => .error HandshakeError.Utf8
    | some cps =>
      if valueHasToken ours cps then .ok HState.Match else .ok HState.Name

/-- `expect_ascii_header` (src/handshake.rs lines 421-450): fold over the
headers whose name matches `name` ignoring ASCII case, looking for a
comma-separated token equal to `ours` ignoring ASCII case. -/
def expect_ascii_header (headers : List HHeader) (name ours : List Nat) :
    Except HandshakeError Unit :=
  let result := (headers.filter (fun h => eqIgnoreAsciiCase h.name name)).foldl
    (eahStep ours) (Except.ok HState.Init)
  match result with
  | .ok HState.Init => .error (HandshakeError.HeaderNotFound name)
  | .ok HState.Name => .error (HandshakeError.UnexpectedHeader name)
  | .ok HState.Match => .ok ()
  | .error e => .error e

/-- The first header whose name equals `name` ignoring ASCII case. -/
def findFirstHeader (headers : List HHeader) (name : List Nat) : Option HHeader :=
  headers.find? (fun h => eqIgnoreAsciiCase h.name name)

/-- `with_first_header` (src/handshake.rs lines 453-462): apply `f` to the
first header with the given name, or fail with `HeaderNotFound`. -/
def with_first_header {R : Type} (headers : List HHeader) (name : List Nat)
    (f : List Nat → Except HandshakeError R) : Except HandshakeError R :=
  match findFirstHeader headers name with
  | some h => f h.value
  | none => .error (HandshakeError.HeaderNotFound name)

-- configure_extensions (src/handshake.rs lines 465-486) ------------------

/-- Parse one `;`-separated parameter piece: the key is the first
`=`-split part trimmed, the value (if any) the second part trimmed and
stripped of surrounding double quotes. -/
def parseParam (piece : List Nat) : Param :=
  let kv := piece.splitOn 61
  { name := trimWs (kv.headD []), value := (kv.get? 1).map (fun v => trimQuotes (trimWs v)) }

/-- Configure the first extension whose name matches `nm` ignoring ASCII
case (`extensions.iter_mut().find(..)`), leaving the rest unchanged; a
`configure` failure becomes `Error::Extension`.  If no extension matches,
the piece is skipped. -/
def configureMatch {σ : Type} (ops : ExtOps σ) (nm : List Nat) (ps : List Param) :
    List σ → Except HandshakeError (List σ)
  | [] => .ok []
  | x :: xs =>
    if eqIgnoreAsciiCase (ops.name x) nm then
      match ops.configure x ps with
      | .error _ => .error HandshakeError.Extension
      | .ok x2 => .ok (x2 :: xs)
    else
      match configureMatch ops nm ps xs with
      | .error e => .error e
      | .ok xs2 => .ok (x :: xs2)

/-- One step of `configure_extensions`' loop over the comma-split pieces. -/
def cfgStep {σ : Type} (ops : ExtOps σ) (acc : Except HandshakeError (List σ))
    (e : List Nat) : Except HandshakeError (List σ) :=
  match acc with
  | .error err => .error err
  | .ok exts =>
    let parts := e.splitOn 59
    configureMatch ops (trimWs (parts.headD [])) ((parts.drop 1).map parseParam) exts

/-- `configure_extensions` (src/handshake.rs lines 465-486): split the
header line on `,`; for each piece, split on `;`, take the trimmed first
part as the extension name, parse the remaining parts as parameters and
configure the matching extension, if any. -/
def configure_extensions {σ : Type} (ops : ExtOps σ) (exts : List σ) (line : List Nat) :
    Except HandshakeError (List σ) :=
  (line.splitOn 44).foldl (cfgStep ops) (.ok exts)

/-- One step of the `Sec-WebSocket-Extensions` header loop. -/
def extHeaderStep {σ : Type} (ops : ExtOps σ) (acc : Except HandshakeError (List σ))
    (h : HHeader) : Except HandshakeError (List σ) :=
  match acc with
  | .error e => .error e
  | .ok exts =>
    match utf8Decode h.value with
    | none => .error HandshakeError.Utf8
    | some cps => configure_extensions ops exts cps

/-- The per-`Sec-WebSocket-Extensions`-header loop shared by
`decode_response` (client) and `decode_request` (server): each matching
header value is UTF-8 decoded (`Error::Utf8` on failure) and passed to
`configure_extensions`. -/
def processExtensionHeaders {σ : Type} (ops : ExtOps σ) (exts : List σ)
    (headers : List HHeader) : Except HandshakeError (List σ) :=
  (headers.filter (fun h => eqIgnoreAsciiCase h.name SEC_WEBSOCKET_EXTENSIONS)).foldl
    (extHeaderStep ops) (.ok exts)

-- Client handshake (src/handshake/client.rs) -----------------------------

/-- The Sec-WebSocket-Accept value for a key: `base64(sha1(key || KEY))`
(both `decode_response` and the server's `encode_response` compute this,
via `digest.update(nonce); digest.update(KEY)`). -/
def acceptValue (key : List Nat) : List Nat :=
  base64Encode (sha1 (key ++ KEY))

/-- The part of the client handshake state used by `decode_response`: the
base64 nonce bytes, the offered protocols (each as its UTF-8 bytes) and
the extensions. -/
structure ClientState (σ : Type) where
  nonce : List Nat
  protocols : List (List Nat)
  extensions : List σ
  deriving DecidableEq

/-- The server response decoded by the client (`client::ServerResponse`).
`Accepted` carries the selected protocol and `Redirect` the location,
both as Rust `String`s, modelled by their Unicode scalar values for
`Redirect` (built via `String::from(str::from_utf8(..)?)`) and by the
matched protocol bytes for `Accepted`. -/
inductive ServerResponse where
  | Accepted (protocol : Option (List Nat))
  | Redirect (statusCode : Nat) (location : List Nat)
  | Rejected (code : Nat)
  deriving DecidableEq

/-- Is the status code one of the redirect codes matched by
`Some(code@(301 ..= 303)) | Some(code@307) | Some(code@308)`? -/
def isRedirectCode (c : Nat) : Bool :=
  (301 ≤ c && c ≤ 303) || c == 307 || c == 308

/-- The 101 branch of `decode_response` (src/handshake/client.rs lines
185-224): check `Upgrade`/`Connection`, verify the accept key, configure
extensions from the `Sec-WebSocket-Extensions` headers, match the
`Sec-WebSocket-Protocol` header and return `Accepted` with `offset` 0
after chopping the parsed prefix off the buffer. -/
def decodeAccepted {σ : Type} (ops : ExtOps σ) (self : ClientState σ) (buf : List Nat)
    (r : HttpResponse) (offset : Nat) :
    Except HandshakeError (Parsing ServerResponse × ClientState σ × List Nat) :=
  match expect_ascii_header r.headers (str "Upgrade") (str "websocket") with
  | .error e => .error e
  | .ok _ =>
  match expect_ascii_header r.headers (str "Connection") (str "upgrade") with
  | .error e => .error e
  | .ok _ =>
  match with_first_header r.headers (str "Sec-WebSocket-Accept") (fun theirs =>
      if acceptValue self.nonce ≠ theirs then
        .error HandshakeError.InvalidSecWebSocketAccept
      else .ok ()) with
  | .error e => .error e
  | .ok _ =>
  match processExtensionHeaders ops self.extensions r.headers with
  | .error e => .error e
  | .ok exts2 =>
  match findFirstHeader r.headers SEC_WEBSOCKET_PROTOCOL with
  | some tp =>
    match self.protocols.find? (fun x => x == tp.value) with
    | some p =>
      .ok (Parsing.Done (ServerResponse.Accepted (some p)) 0,
           { self with extensions := exts2 }, buf.drop offset)
    | none => .error HandshakeError.UnsolicitedProtocol
  | none =>
    .ok (Parsing.Done (ServerResponse.Accepted none) 0,
         { self with extensions := exts2 }, buf.drop offset)

/-- `decode_response` (src/handshake/client.rs lines 154-225), given the
result of the external `httparse` parse of a complete response (`offset`
is the byte count `httparse` consumed; an incomplete parse yields
`NeedMore` and an `httparse` error `Error::Http` before this point).
Returns the parsing result together with the updated handshake state and
the buffer after the `split_to` calls. -/
def decode_response {σ : Type} (ops : ExtOps σ) (self : ClientState σ) (buf : List Nat)
    (r : HttpResponse) (offset : Nat) :
    Except HandshakeError (Parsing ServerResponse × ClientState σ × List Nat) :=
  if r.version ≠ some 1 then .error HandshakeError.UnsupportedHttpVersion
  else
    match r.code with
    | some c =>
      if c = 101 then decodeAccepted ops self buf r offset
      else if isRedirectCode c then
        match with_first_header r.headers (str "Location") (fun loc =>
            match utf8Decode loc with
            | none => .error HandshakeError.Utf8
            | some l => .ok l) with
        | .error e => .error e
        | .ok location =>
          .ok (Parsing.Done (ServerResponse.Redirect c location) offset, self, buf.drop offset)
      else
        .ok (Parsing.Done (ServerResponse.Rejected c) offset, self, buf.drop offset)
    | none =>
      .ok (Parsing.Done (ServerResponse.Rejected 0) offset, self, buf.drop offset)

-- Server handshake (src/handshake/server.rs) -----------------------------

/-- The part of the server handshake state used by `decode_request`:
supported protocols (each as its UTF-8 bytes) and extensions. -/
structure ServerState (σ : Type) where
  protocols : List (List Nat)
  extensions : List σ
  deriving DecidableEq

/-- The parsed client request (`server::ClientRequest`): the raw websocket
key bytes and the selected protocols (Rust `&str`s, modelled by their
Unicode scalar values). -/
structure ClientRequest where
  wsKey : List Nat
  protocols : List (List Nat)
  deriving DecidableEq

/-- One step of the protocol-collection loop. -/
def protoStep (supported : List (List Nat))
    (acc : Except HandshakeError (List (List Nat))) (h : HHeader) :
    Except HandshakeError (List (List Nat)) :=
  match acc with
  | .error e => .error e
  | .ok ps =>
    if (supported.find? (fun x => x == h.value)).isSome then
      match utf8Decode h.value with
      | none => .error HandshakeError.Utf8
      | some cps => .ok (ps ++ [cps])
    else .ok ps

/-- The protocol-collection loop of `decode_request` (src/handshake/server.rs
lines 165-172): for each `Sec-WebSocket-Protocol` header whose value
occurs byte-for-byte in the supported set, push its UTF-8 decoding. -/
def collectProtocols (supported : List (List Nat)) (headers : List HHeader) :
    Except HandshakeError (List (List Nat)) :=
  (headers.filter (fun h => eqIgnoreAsciiCase h.name SEC_WEBSOCKET_PROTOCOL)).foldl
    (protoStep supported) (.ok [])

/-- `decode_request` (src/handshake/server.rs lines 131-175), given the
result of the external `httparse` parse of a complete request. -/
def decode_request {σ : Type} (ops : ExtOps σ) (self : ServerState σ)
    (r : HttpRequest) (offset : Nat) :
    Except HandshakeError (Parsing ClientRequest × ServerState σ) :=
  if r.method ≠ some (str "GET") then .error HandshakeError.InvalidRequestMethod
  else if r.version ≠ some 1 then .error HandshakeError.UnsupportedHttpVersion
  else
  match with_first_header r.headers (str "Host") (fun _ => .ok ()) with
  | .error e => .error e
  | .ok _ =>
  match expect_ascii_header r.headers (str "Upgrade") (str "websocket") with
  | .error e => .error e
  | .ok _ =>
  match expect_ascii_header r.headers (str "Connection") (str "upgrade") with
  | .error e => .error e
  | .ok _ =>
  match expect_ascii_header r.headers (str "Sec-WebSocket-Version") (str "13") with
  | .error e => .error e
  | .ok _ =>
  match with_first_header r.headers (str "Sec-WebSocket-Key") (fun k => .ok k) with
  | .error e => .error e
  | .ok wsKey =>
  match processExtensionHeaders ops self.extensions r.headers with
  | .error e => .error e
  | .ok exts2 =>
  match collectProtocols self.protocols r.headers with
  | .error e => .error e
  | .ok protocols =>
    .ok (Parsing.Done { wsKey := wsKey, protocols := protocols } offset,
         { self with extensions := exts2 })

/-- The response the server sends (`server::Response`). -/
inductive SResponse where
  | Accept (key : List Nat) (protocol : Option (List Nat))
  | Reject (code : Nat)

/-- Render one parameter of an extension for the
`Sec-WebSocket-Extensions` line (`append_extensions`). -/
def renderParam (p : Param) : List Nat :=
  str "; " ++ p.name ++ (match p.value with | some v => str "=" ++ v | none => [])

/-- Render one extension (name followed by its parameters) for the
`Sec-WebSocket-Extensions` line. -/
def renderExtension {σ : Type} (ops : ExtOps σ) (e : σ) : List Nat :=
  ops.name e ++ ((ops.params e).map renderParam).flatten

/-- `append_extensions` (src/handshake.rs lines 489-513): nothing if the
extension list is empty, otherwise the `Sec-WebSocket-Extensions` header
line with the rendered extensions joined by `", "`. -/
def append_extensions {σ : Type} (ops : ExtOps σ) (exts : List σ) : List Nat :=
  match exts with
  | [] => []
  | _ => str "\r\nSec-WebSocket-Extensions: " ++
         List.intercalate (str ", ") (exts.map (renderExtension ops))

/-- The decimal digits of `n` as ASCII bytes (`StatusCode::as_str`). -/
def natDigits (n : Nat) : List Nat :=
  (Nat.toDigits 10 n).map Char.toNat

/-- `encode_response` (src/handshake/server.rs lines 178-212).  The crate
version string (`SOKETTO_VERSION`, from the missing `Cargo.toml`) and the
external `http::StatusCode::canonical_reason` table are parameters;
`StatusCode::from_u16` accepts 100..=999 and the code falls back to 500
otherwise. -/
def encode_response {σ : Type} (ops : ExtOps σ) (version : List Nat)
    (reasonOf : Nat → Option (List Nat)) (self : ServerState σ)
    (resp : SResponse) : List Nat :=
  match resp with
  | SResponse.Accept key proto =>
    str "HTTP/1.1 101 Switching Protocols" ++ str "\r\nServer: soketto-" ++ version ++
    str "\r\nUpgrade: websocket\r\nConnection: upgrade" ++
    str "\r\nSec-WebSocket-Accept: " ++ acceptValue key ++
    (match proto with
     | some p => str "\r\nSec-WebSocket-Protocol: " ++ p
     | none => []) ++
    append_extensions ops (self.extensions.filter ops.isEnabled) ++
    str "\r\n\r\n"
  | SResponse.Reject code =>
    let c := if 100 ≤ code ∧ code ≤ 999 then code else 500
    str "HTTP/1.1 " ++ natDigits c ++ str " " ++
    ((reasonOf c).getD (str "N/A")) ++ str "\r\n\r\n"

-- Connection (src/connection.rs) -----------------------------------------

/-- Client or server side of a connection (`connection::Mode`). -/
inductive Mode where
  | Client
  | Server
  deriving DecidableEq

/-- `Mode::is_client`. -/
def Mode.is_client : Mode → Bool
  | .Client => true
  | .Server => false

/-- Connection error cases (`connection::Error`); payload-carrying
external boxes are modelled without payload. -/
inductive ConnError where
  | Io
  | Codec
  | Extension
  | UnexpectedOpCode (c : OpCode)
  | Utf8
  | MessageTooLarge (actual maximum : Nat)
  | Closed
  deriving DecidableEq

/-- The connection state touched by `add_extensions` and `send` (the
socket is the external transport). -/
structure Connection (σ : Type) where
  mode : Mode
  codec : Codec
  extensions : List σ
  deriving DecidableEq

/-- `Connection::new`. -/
def Connection.new (σ : Type) (mode : Mode) : Connection σ :=
  { mode := mode, codec := Codec.default, extensions := [] }

/-- `add_extensions` (src/connection.rs lines 61-71): for each incoming
extension with `is_enabled()`, OR its `reserved_bits()` into the codec
and append it to the connection's extension list. -/
def add_extensions {σ : Type} (ops : ExtOps σ) (conn : Connection σ)
    (exts : List σ) : Connection σ :=
  (exts.filter ops.isEnabled).foldl
    (fun c e =>
      { c with codec := c.codec.add_reserved_bits (ops.reservedBits e),
               extensions := c.extensions ++ [e] })
    conn

/-- The extension loop of `send` (src/connection.rs lines 86-89): pass the
mutable header and data through each extension's `encode` in declaration
order; an extension failure becomes `Error::Extension`. -/
def sendExtEncode {σ : Type} (ops : ExtOps σ) :
    List σ → Header → List Nat → Except ConnError (List σ × Header × List Nat)
  | [], h, d => .ok ([], h, d)
  | e :: es, h, d =>
    match ops.encode e h d with
    | .error _ => .error ConnError.Extension
    | .ok (e2, h2, d2) =>
      match sendExtEncode ops es h2 d2 with
      | .error err => .error err
      | .ok (es2, h3, d3) => .ok (e2 :: es2, h3, d3)

/-- `Connection::send` (src/connection.rs lines 80-100).  `maskBytes`
models the `rand::random()` 4-byte mask drawn in client mode.  Returns
the updated connection and the bytes written to the socket (header bytes
followed by payload bytes). -/
def send {σ : Type} (ops : ExtOps σ) (conn : Connection σ) (maskBytes : List Nat)
    (data : List Nat) (asText : Bool) :
    Except ConnError (Connection σ × List Nat) :=
  let header := Header.new (if asText then OpCode.Text else OpCode.Binary)
  match sendExtEncode ops conn.extensions header data with
  | .error e => .error e
  | .ok (exts2, h2, d2) =>
    let hd := if conn.mode.is_client then
                ({ h2 with masked := true, mask := maskBytes }, applyMask maskBytes d2)
              else (h2, d2)
    let h4 := { hd.1 with payloadLen := hd.2.length }
    .ok ({ conn with extensions := exts2 }, encodeHeader h4 ++ hd.2)

-- close_answer (src/connection.rs lines 449-473) --------------------------

/-- Websocket payload data (`data::Data`): binary or UTF-8 text bytes. -/
inductive Data where
  | Binary (bytes : List Nat)
  | Text (bytes : List Nat)
  deriving DecidableEq

/-- The underlying bytes of a payload (`Data::as_ref`). -/
def Data.bytes : Data → List Nat
  | .Binary b => b
  | .Text b => b

/-- `BytesMut::truncate(2)` preserving the `Data` tag. -/
def Data.truncate2 : Data → Data
  | .Binary b => .Binary (b.take 2)
  | .Text b => .Text (b.take 2)

/-- A close frame as built by `close_answer`: the `Close` opcode together
with its optional payload data. -/
structure CloseFrame where
  payload : Option Data
  deriving DecidableEq

/-- Is a close code in the acceptable set
`1000 ..= 1003 | 1007 ..= 1011 | 1015 | 3000 ..= 4999`? -/
def acceptableCloseCode (c : Nat) : Bool :=
  (1000 ≤ c && c ≤ 1003) || (1007 ≤ c && c ≤ 1011) || c == 1015 ||
  (3000 ≤ c && c ≤ 4999)

/-- `close_answer` (src/connection.rs lines 449-473): given the payload of
a received close frame, build the close frame to echo.  A payload of at
least 2 bytes yields the big-endian code of its first two bytes; its
remainder must be valid UTF-8 (the reason).  Acceptable codes are echoed
by truncating the payload to 2 bytes; other codes are answered with a
fresh binary payload carrying code 1002.  Anything shorter yields a close
frame without payload. -/
def close_answer (payload : Option Data) : Except ConnError CloseFrame :=
  match payload with
  | some d =>
    if 2 ≤ d.bytes.length then
      match utf8Decode (d.bytes.drop 2) with
      | none => .error ConnError.Utf8
      | some _ =>
        let code := (d.bytes.getD 0 0) * 256 + d.bytes.getD 1 0
        if acceptableCloseCode code then
          .ok { payload := some d.truncate2 }
        else
          .ok { payload := some (Data.Binary [3, 234]) }
    else .ok { payload := none }
  | none => .ok { payload := none }

-- Statement-side definitions and concrete fixtures ------------------------

/-- Does the byte list `hay` contain `pat` as a contiguous subsequence?
Used to state that an encoded response does (not) carry a header. -/
def containsSeq (hay pat : List Nat) : Bool :=
  match hay with
  | [] => pat.isEmpty
  | b :: t => pat.isPrefixOf (b :: t) || containsSeq t pat

/-- The spec-side token predicate of the claim about `expect_ascii_header`:
some header whose name equals `name` ignoring ASCII case contains, among
the comma-split values of its (decoded) value after trimming whitespace,
a token equal to `ours` ignoring ASCII case. -/
def specTokenPresent (headers : List HHeader) (name ours : List Nat) : Bool :=
  headers.any (fun h =>
    eqIgnoreAsciiCase h.name name &&
    (match utf8Decode h.value with
     | some cps => (cps.splitOn 44).any (fun v => eqIgnoreAsciiCase (trimWs v) ours)
     | none => false))

/-- Is some header's name equal to `name` ignoring ASCII case? -/
def hasHeaderNamed (headers : List HHeader) (name : List Nat) : Bool :=
  headers.any (fun h => eqIgnoreAsciiCase h.name name)

/-- The length of an optional close payload (`None` counting as empty). -/
def closePayloadLen : Option Data → Nat
  | none => 0
  | some d => d.bytes.length

/-- A trivial extension instance over `Unit`, used to instantiate the
universally quantified theorems on concrete inputs. -/
def trivExtOps : ExtOps Unit :=
  { name := fun _ => str "triv",
    isEnabled := fun _ => true,
    reservedBits := fun _ => 4,
    params := fun _ => [],
    configure := fun x _ => .ok x,
    encode := fun e h d => .ok (e, h, d) }

/-- The RFC 6455 section 1.3 sample nonce. -/
def sampleNonce : List Nat := str "dGhlIHNhbXBsZSBub25jZQ=="

/-- The RFC 6455 section 1.3 accept value for `sampleNonce`. -/
def sampleAccept : List Nat := str "s3pPLMBiTxaQ9kYGzzhZRbK+xOo="

/-- A concrete client handshake state using the sample nonce, offering no
protocols and no extensions. -/
def clientStateA : ClientState Unit :=
  { nonce := sampleNonce, protocols := [], extensions := [] }

/-- Headers of a well-formed accepting 101 response for `sampleNonce`. -/
def okHeaders : List HHeader :=
  [ { name := str "Upgrade", value := str "websocket" },
    { name := str "Connection", value := str "upgrade" },
    { name := str "Sec-WebSocket-Accept", value := sampleAccept } ]

/-- A well-formed accepting 101 response for `sampleNonce`. -/
def respOk : HttpResponse :=
  { version := some 1, code := some 101, headers := okHeaders }

/-- A 101 response whose `Sec-WebSocket-Extensions` header names the
extension `foo`, which the client did not offer. -/
def respFoo : HttpResponse :=
  { version := some 1, code := some 101,
    headers := okHeaders ++ [{ name := SEC_WEBSOCKET_EXTENSIONS, value := str "foo" }] }

/-- A 101 response whose `Sec-WebSocket-Accept` header value is wrong. -/
def respBadAccept : HttpResponse :=
  { version := some 1, code := some 101,
    headers := [ { name := str "Upgrade", value := str "websocket" },
                 { name := str "Connection", value := str "upgrade" },
                 { name := str "Sec-WebSocket-Accept", value := str "AAAA" } ] }

/-- A 301 redirect response with `Location: /x`. -/
def resp301 : HttpResponse :=
  { version := some 1, code := some 301,
    headers := [ { name := str "Location", value := str "/x" } ] }

/-- A concrete server handshake state supporting only protocol `chat`. -/
def serverStateChat : ServerState Unit :=
  { protocols := [str "chat"], extensions := [] }

/-- A well-formed client upgrade request offering only protocol `v2`. -/
def reqV2 : HttpRequest :=
  { method := some (str "GET"), version := some 1,
    headers := [ { name := str "Host", value := str "localhost" },
                 { name := str "Upgrade", value := str "websocket" },
                 { name := str "Connection", value := str "upgrade" },
                 { name := str "Sec-WebSocket-Version", value := str "13" },
                 { name := str "Sec-WebSocket-Key", value := sampleNonce },
                 { name := SEC_WEBSOCKET_PROTOCOL, value := str "v2" } ] }

/-- Decidable equality for `Except`, needed to evaluate the codec
functions on concrete inputs. -/
instance {ε α : Type} [DecidableEq ε] [DecidableEq α] : DecidableEq (Except ε α)
  | .error e1, .error e2 =>
    if h : e1 = e2 then .isTrue (congrArg Except.error h)
    else .isFalse (fun hc => h (Except.error.inj hc))
  | .error _, .ok _ => .isFalse (fun hc => Except.noConfusion hc)
  | .ok _, .error _ => .isFalse (fun hc => Except.noConfusion hc)
  | .ok x1, .ok x2 =>
    if h : x1 = x2 then .isTrue (congrArg Except.ok h)
    else .isFalse (fun hc => h (Except.ok.inj hc))

-- Theorems ---------------------------------------------------------------

theorem applyMaskFrom_involutive (mask : List Nat) (i : Nat) (l : List Nat) :
    applyMaskFrom mask i (applyMaskFrom mask i l) = l := by
  induction l generalizing i with
  | nil => simp [applyMaskFrom]
  | cons b rest ih =>
    simp only [applyMaskFrom, ih]
    exact congrArg (fun x => x :: rest) (Nat.xor_cancel_right _ _)

/-- C9: for every 4-byte mask and every byte slice, applying the payload
masking operation (`slice[i] ^= mask[i mod 4]`) twice with the same mask
restores the original slice; masking is self-inverse. -/
theorem mask_self_inverse (mask l : List Nat) :
    applyMask mask (applyMask mask l) = l :=
  applyMaskFrom_involutive mask 0 l

theorem add_extensions_go {σ : Type} (ops : ExtOps σ) (conn : Connection σ) (fl : List σ) :
    ((fl.foldl (fun c e =>
      { c with codec := c.codec.add_reserved_bits (ops.reservedBits e),
               extensions := c.extensions ++ [e] }) conn).extensions
        = conn.extensions ++ fl)
  ∧ ((fl.foldl (fun c e =>
      { c with codec := c.codec.add_reserved_bits (ops.reservedBits e),
               extensions := c.extensions ++ [e] }) conn).codec.reservedBits
        = fl.foldl (fun r e => Nat.lor r (ops.reservedBits e)) conn.codec.reservedBits)
  ∧ ((fl.foldl (fun c e =>
      { c with codec := c.codec.add_reserved_bits (ops.reservedBits e),
               extensions := c.extensions ++ [e] }) conn).mode = conn.mode)
  ∧ ((fl.foldl (fun c e =>
      { c with codec := c.codec.add_reserved_bits (ops.reservedBits e),
               extensions := c.extensions ++ [e] }) conn).codec.maxPayloadLen
        = conn.codec.maxPayloadLen) := by
  induction fl generalizing conn with
  | nil => simp
  | cons e es ih =>
    simp only [List.foldl_cons]
    have h := ih { conn with codec := conn.codec.add_reserved_bits (ops.reservedBits e),
                             extensions := conn.extensions ++ [e] }
    simp only [Codec.add_reserved_bits] at h ⊢
    refine ⟨?_, ?_, ?_, ?_⟩
    · rw [h.1]; simp
    · rw [h.2.1]
    · rw [h.2.2.1]
    · rw [h.2.2.2]

/-- C10: `add_extensions` appends exactly the extensions with
`is_enabled()`, in iteration order, ORs each appended extension's
`reserved_bits()` into the codec's accepted reserved bits, and leaves
everything else unchanged; disabled extensions contribute nothing. -/
theorem add_extensions_spec {σ : Type} (ops : ExtOps σ) (conn : Connection σ)
    (exts : List σ) :
    ((add_extensions ops conn exts).extensions
        = conn.extensions ++ exts.filter ops.isEnabled)
  ∧ ((add_extensions ops conn exts).codec.reservedBits
        = (exts.filter ops.isEnabled).foldl
            (fun r e => Nat.lor r (ops.reservedBits e)) conn.codec.reservedBits)
  ∧ ((add_extensions ops conn exts).mode = conn.mode)
  ∧ ((add_extensions ops conn exts).codec.maxPayloadLen = conn.codec.maxPayloadLen) :=
  add_extensions_go ops conn (exts.filter ops.isEnabled)

theorem applyMaskFrom_length (mask : List Nat) (i : Nat) (l : List Nat) :
    (applyMaskFrom mask i l).length = l.length := by
  induction l generalizing i with
  | nil => rfl
  | cons b rest ih => simp [applyMaskFrom, ih]

theorem applyMask_length (mask l : List Nat) :
    (applyMask mask l).length = l.length :=
  applyMaskFrom_length mask 0 l

/-- C8: a received close payload shorter than 2 bytes is echoed as a
close frame with empty payload; otherwise, with the big-endian code of
the first two bytes and a valid UTF-8 reason, the echo keeps the same
code when it lies in the acceptable set and carries code 1002 otherwise. -/
theorem close_answer_spec (payload : Option Data) :
    (closePayloadLen payload < 2 → close_answer payload = .ok { payload := none })
  ∧ (∀ d : Data, payload = some d → 2 ≤ d.bytes.length →
      utf8Valid (d.bytes.drop 2) = true →
      (acceptableCloseCode (d.bytes.getD 0 0 * 256 + d.bytes.getD 1 0) = true →
        close_answer payload = .ok { payload := some d.truncate2 } ∧
        d.truncate2.bytes = d.bytes.take 2)
    ∧ (acceptableCloseCode (d.bytes.getD 0 0 * 256 + d.bytes.getD 1 0) = false →
        close_answer payload = .ok { payload := some (Data.Binary [3, 234]) } ∧
        (3 : Nat) * 256 + 234 = 1002)) := by
  constructor
  · intro hlt
    match payload with
    | none => rfl
    | some d =>
      simp only [closePayloadLen] at hlt
      simp [close_answer, Nat.not_le.mpr hlt]
  · intro d hd hlen hutf
    subst hd
    simp only [utf8Valid, Option.isSome_iff_exists] at hutf
    obtain ⟨cps, hcps⟩ := hutf
    constructor
    · intro hacc
      have hacc2 : acceptableCloseCode (d.bytes[0]?.getD 0 * 256 + d.bytes[1]?.getD 0) = true := by
        simpa using hacc
      constructor
      · simp [close_answer, hlen, hcps, hacc2]
      · cases d <;> simp [Data.truncate2, Data.bytes]
    · intro hacc
      have hacc2 : acceptableCloseCode (d.bytes[0]?.getD 0 * 256 + d.bytes[1]?.getD 0) = false := by
        simpa using hacc
      constructor
      · simp [close_answer, hlen, hcps, hacc2]
      · norm_num

/-- C8 witness: close code 1000 with reason `hi` is echoed unchanged;
close code 1006 is answered with 1002; a 1-byte payload is answered with
an empty close frame. -/
theorem close_answer_spec_witness :
    close_answer (some (Data.Binary [3, 232, 104, 105]))
      = .ok { payload := some (Data.Binary [3, 232]) } ∧
    close_answer (some (Data.Binary [3, 238]))
      = .ok { payload := some (Data.Binary [3, 234]) } ∧
    close_answer (some (Data.Binary [7])) = .ok { payload := none } := by
  refine ⟨?_, ?_, ?_⟩
  · exact (((close_answer_spec (some (Data.Binary [3, 232, 104, 105]))).2
      (Data.Binary [3, 232, 104, 105]) rfl (by decide) (by decide)).1 (by decide)).1
  · exact (((close_answer_spec (some (Data.Binary [3, 238]))).2
      (Data.Binary [3, 238]) rfl (by decide) (by decide)).2 (by decide)).1
  · exact (close_answer_spec (some (Data.Binary [7]))).1 (by decide)

/-- C5: `send` builds a fin=true text-or-binary header, threads it with
the data through the extensions in declaration order, masks the payload
and sets `masked` with the fresh mask exactly in client mode, sets the
payload length to the length of the post-extension data, and emits the
encoded header bytes followed by the payload bytes; in server mode the
payload is written unmasked and unmodified. -/
theorem send_spec {σ : Type} (ops : ExtOps σ) (conn : Connection σ)
    (maskBytes data : List Nat) (asText : Bool)
    (exts2 : List σ) (h2 : Header) (d2 : List Nat)
    (henc : sendExtEncode ops conn.extensions
      (Header.new (if asText then OpCode.Text else OpCode.Binary)) data
        = .ok (exts2, h2, d2)) :
    (conn.mode = Mode.Client →
      send ops conn maskBytes data asText =
        .ok ({ conn with extensions := exts2 },
          encodeHeader { h2 with masked := true, mask := maskBytes,
                                 payloadLen := d2.length }
            ++ applyMask maskBytes d2))
  ∧ (conn.mode = Mode.Server →
      send ops conn maskBytes data asText =
        .ok ({ conn with extensions := exts2 },
          encodeHeader { h2 with payloadLen := d2.length } ++ d2))
  ∧ (Header.new (if asText then OpCode.Text else OpCode.Binary)).fin = true
  ∧ (Header.new (if asText then OpCode.Text else OpCode.Binary)).opcode
      = (if asText then OpCode.Text else OpCode.Binary)
  ∧ (applyMask maskBytes d2).length = d2.length := by
  refine ⟨?_, ?_, rfl, rfl, applyMask_length maskBytes d2⟩
  · intro hm
    simp [send, henc, hm, Mode.is_client, applyMask_length]
  · intro hm
    simp [send, henc, hm, Mode.is_client]

/-- C5 witness: a concrete client-mode send with no extensions masks the
payload, and a concrete server-mode send leaves it untouched. -/
theorem send_spec_witness :
    send trivExtOps { mode := Mode.Client, codec := Codec.default, extensions := [] }
        [1, 2, 3, 4] [10, 20, 30] true
      = .ok ({ mode := Mode.Client, codec := Codec.default, extensions := [] },
          encodeHeader { fin := true, rsv1 := false, rsv2 := false, rsv3 := false,
                         opcode := OpCode.Text, masked := true, mask := [1, 2, 3, 4],
                         payloadLen := 3 }
            ++ applyMask [1, 2, 3, 4] [10, 20, 30]) ∧
    send trivExtOps { mode := Mode.Server, codec := Codec.default, extensions := [] }
        [1, 2, 3, 4] [10, 20, 30] false
      = .ok ({ mode := Mode.Server, codec := Codec.default, extensions := [] },
          encodeHeader { fin := true, rsv1 := false, rsv2 := false, rsv3 := false,
                         opcode := OpCode.Binary, masked := false, mask := [0, 0, 0, 0],
                         payloadLen := 3 } ++ [10, 20, 30]) := by
  constructor
  · exact (send_spec trivExtOps
      { mode := Mode.Client, codec := Codec.default, extensions := [] }
      [1, 2, 3, 4] [10, 20, 30] true [] (Header.new OpCode.Text) [10, 20, 30] rfl).1 rfl
  · exact (send_spec trivExtOps
      { mode := Mode.Server, codec := Codec.default, extensions := [] }
      [1, 2, 3, 4] [10, 20, 30] false [] (Header.new OpCode.Binary) [10, 20, 30] rfl).2.1 rfl

theorem configureMatch_error {σ : Type} (ops : ExtOps σ) (nm : List Nat)
    (ps : List Param) (l : List σ) (e : HandshakeError) :
    configureMatch ops nm ps l = .error e → e = HandshakeError.Extension := by
  induction l with
  | nil => intro h; simp [configureMatch] at h
  | cons x xs ih =>
    intro h
    simp only [configureMatch] at h
    by_cases hx : eqIgnoreAsciiCase (ops.name x) nm = true
    · rw [if_pos hx] at h
      cases hcfg : ops.configure x ps with
      | error u => rw [hcfg] at h; cases h; rfl
      | ok x2 => rw [hcfg] at h; cases h
    · rw [if_neg hx] at h
      cases hrec : configureMatch ops nm ps xs with
      | error e2 => rw [hrec] at h; cases h; exact ih hrec
      | ok xs2 => rw [hrec] at h; cases h

theorem foldl_except_error {α β : Type} (f : Except HandshakeError α → β → Except HandshakeError α)
    (P : HandshakeError → Prop)
    (hpass : ∀ e b, f (.error e) b = .error e)
    (hstep : ∀ (a : α) (b : β) (e : HandshakeError), f (.ok a) b = .error e → P e) :
    ∀ (l : List β) (acc : Except HandshakeError α) (e : HandshakeError),
      l.foldl f acc = .error e → acc = .error e ∨ P e := by
  intro l
  induction l with
  | nil => intro acc e h; exact Or.inl h
  | cons b t ih =>
    intro acc e h
    simp only [List.foldl_cons] at h
    cases hacc : acc with
    | error e0 =>
      rw [hacc, hpass] at h
      rcases ih _ _ h with h1 | h2
      · exact Or.inl (by rw [← h1])
      · exact Or.inr h2
    | ok a =>
      rw [hacc] at h
      rcases ih _ _ h with h1 | h2
      · exact Or.inr (hstep a b e h1)
      · exact Or.inr h2

theorem configure_extensions_error {σ : Type} (ops : ExtOps σ) (exts : List σ)
    (line : List Nat) (e : HandshakeError) :
    configure_extensions ops exts line = .error e → e = HandshakeError.Extension := by
  intro h
  rcases foldl_except_error (cfgStep ops) (· = HandshakeError.Extension)
      (fun e b => rfl)
      (fun a b e2 h2 => configureMatch_error ops _ _ a e2 h2)
      (line.splitOn 44) (.ok exts) e h with h1 | h2
  · cases h1
  · exact h2

theorem processExtensionHeaders_error {σ : Type} (ops : ExtOps σ) (exts : List σ)
    (headers : List HHeader) (e : HandshakeError) :
    processExtensionHeaders ops exts headers = .error e →
      e = HandshakeError.Extension ∨ e = HandshakeError.Utf8 := by
  intro h
  rcases foldl_except_error (extHeaderStep ops)
      (fun e => e = HandshakeError.Extension ∨ e = HandshakeError.Utf8)
      (fun e b => rfl)
      (fun a b e2 h2 => by
        simp only [extHeaderStep] at h2
        cases hd : utf8Decode b.value with
        | none => rw [hd] at h2; cases h2; exact Or.inr rfl
        | some cps => rw [hd] at h2; exact Or.inl (configure_extensions_error ops a cps e2 h2))
      _ (.ok exts) e h with h1 | h2
  · cases h1
  · exact h2

theorem collectProtocols_error (supported : List (List Nat)) (headers : List HHeader)
    (e : HandshakeError) :
    collectProtocols supported headers = .error e → e = HandshakeError.Utf8 := by
  intro h
  rcases foldl_except_error (protoStep supported) (· = HandshakeError.Utf8)
      (fun e b => rfl)
      (fun a b e2 h2 => by
        simp only [protoStep] at h2
        by_cases hs : (supported.find? (fun x => x == b.value)).isSome = true
        · rw [if_pos hs] at h2
          cases hd : utf8Decode b.value with
          | none => rw [hd] at h2; cases h2; rfl
          | some cps => rw [hd] at h2; cases h2
        · rw [if_neg hs] at h2; cases h2)
      _ (.ok []) e h with h1 | h2
  · cases h1
  · exact h2

theorem eahFold_error (ours : List Nat) (l : List HHeader) :
    ∀ (acc : Except HandshakeError HState) (e : HandshakeError),
      l.foldl (eahStep ours) acc = .error e → e = HandshakeError.Utf8 ∨ acc = .error e := by
  induction l with
  | nil => intro acc e h; exact Or.inr h
  | cons b t ih =>
    intro acc e h
    simp only [List.foldl_cons] at h
    have hstep : eahStep ours acc b = acc ∨ eahStep ours acc b = .error HandshakeError.Utf8 ∨
        eahStep ours acc b = .ok HState.Match ∨ eahStep ours acc b = .ok HState.Name := by
      simp only [eahStep]
      cases acc with
      | ok st =>
        cases st with
        | Init =>
          cases hd : utf8Decode b.value with
          | none => exact Or.inr (Or.inl rfl)
          | some cps =>
            by_cases hv : valueHasToken ours cps = true
            · simp [hv]
            · simp [hv]
        | Name =>
          cases hd : utf8Decode b.value with
          | none => exact Or.inr (Or.inl rfl)
          | some cps =>
            by_cases hv : valueHasToken ours cps = true
            · simp [hv]
            · simp [hv]
        | Match => exact Or.inl rfl
      | error e0 =>
        cases hd : utf8Decode b.value with
        | none => exact Or.inr (Or.inl rfl)
        | some cps =>
          by_cases hv : valueHasToken ours cps = true
          · simp [hv]
          · simp [hv]
    rcases hstep with h1 | h1 | h1 | h1 <;> rw [h1] at h
    · exact ih acc e h
    · rcases ih _ _ h with h2 | h2
      · exact Or.inl h2
      · exact Or.inl (by cases h2; rfl)
    · rcases ih _ _ h with h2 | h2
      · exact Or.inl h2
      · cases h2
    · rcases ih _ _ h with h2 | h2
      · exact Or.inl h2
      · cases h2

theorem expect_ascii_header_cases (headers : List HHeader) (name ours : List Nat)
    (e : HandshakeError) :
    expect_ascii_header headers name ours = .error e →
      e = HandshakeError.HeaderNotFound name ∨ e = HandshakeError.UnexpectedHeader name ∨
      e = HandshakeError.Utf8 := by
  intro h
  unfold expect_ascii_header at h
  cases hf : (headers.filter (fun h => eqIgnoreAsciiCase h.name name)).foldl
      (eahStep ours) (Except.ok HState.Init) with
  | ok st =>
    rw [hf] at h
    cases st
    · cases h; exact Or.inl rfl
    · cases h; exact Or.inr (Or.inl rfl)
    · cases h
  | error e2 =>
    rw [hf] at h
    cases h
    rcases eahFold_error ours _ _ _ hf with h2 | h2
    · exact Or.inr (Or.inr h2)
    · cases h2

theorem decodeAccepted_no_unsol {σ : Type} (ops : ExtOps σ) (self : ClientState σ)
    (buf : List Nat) (r : HttpResponse) (off : Nat) :
    decodeAccepted ops self buf r off ≠ .error HandshakeError.UnsolicitedExtension := by
  intro h
  unfold decodeAccepted at h
  cases h1 : expect_ascii_header r.headers (str "Upgrade") (str "websocket") with
  | error e =>
    simp only [h1] at h
    injection h with he
    subst he
    rcases expect_ascii_header_cases _ _ _ _ h1 with h3 | h3 | h3 <;> simp at h3
  | ok u =>
    simp only [h1] at h
    cases h2 : expect_ascii_header r.headers (str "Connection") (str "upgrade") with
    | error e =>
      simp only [h2] at h
      injection h with he
      subst he
      rcases expect_ascii_header_cases _ _ _ _ h2 with h3 | h3 | h3 <;> simp at h3
    | ok u2 =>
      simp only [h2, with_first_header] at h
      cases h3 : findFirstHeader r.headers (str "Sec-WebSocket-Accept") with
      | none => simp only [h3] at h; simp at h
      | some hh =>
        simp only [h3] at h
        by_cases h4 : acceptValue self.nonce ≠ hh.value
        · rw [if_pos h4] at h; simp at h
        · rw [if_neg h4] at h
          cases h5 : processExtensionHeaders ops self.extensions r.headers with
          | error e =>
            simp only [h5] at h
            injection h with he
            subst he
            rcases processExtensionHeaders_error _ _ _ _ h5 with h7 | h7 <;> simp at h7
          | ok exts2 =>
            simp only [h5] at h
            cases h6 : findFirstHeader r.headers SEC_WEBSOCKET_PROTOCOL with
            | none => simp only [h6] at h; simp at h
            | some tp =>
              simp only [h6] at h
              cases h7 : self.protocols.find? (fun x => x == tp.value) with
              | none => simp only [h7] at h; simp at h
              | some p => simp only [h7] at h; simp at h

/-- C2 (amended): `decode_response` never fails with
`UnsolicitedExtension`: extension names in `Sec-WebSocket-Extensions`
headers that match no offered extension are silently skipped, leaving the
extension list unchanged. -/
theorem unsolicited_extension_skipped {σ : Type} (ops : ExtOps σ) (self : ClientState σ)
    (buf : List Nat) (r : HttpResponse) (off : Nat) :
    (decode_response ops self buf r off ≠ .error HandshakeError.UnsolicitedExtension)
  ∧ (∀ (nm : List Nat) (ps : List Param) (exts : List σ),
      (∀ x ∈ exts, eqIgnoreAsciiCase (ops.name x) nm = false) →
      configureMatch ops nm ps exts = .ok exts) := by
  constructor
  · intro h
    unfold decode_response at h
    by_cases hv : r.version ≠ some 1
    · rw [if_pos hv] at h; simp at h
    · rw [if_neg hv] at h
      cases hcode : r.code with
      | none => simp only [hcode] at h; simp at h
      | some c =>
        simp only [hcode] at h
        by_cases h101 : c = 101
        · rw [if_pos h101] at h
          exact decodeAccepted_no_unsol ops self buf r off h
        · rw [if_neg h101] at h
          by_cases hred : isRedirectCode c = true
          · rw [if_pos hred] at h
            unfold with_first_header at h
            cases hloc : findFirstHeader r.headers (str "Location") with
            | none => simp only [hloc] at h; simp at h
            | some hh =>
              simp only [hloc] at h
              cases hdec : utf8Decode hh.value with
              | none => simp only [hdec] at h; simp at h
              | some l => simp only [hdec] at h; simp at h
          · rw [if_neg hred] at h; simp at h
  · intro nm ps exts
    induction exts with
    | nil => intro _; rfl
    | cons x xs ih =>
      intro hall
      have hx := hall x (List.mem_cons_self x xs)
      have hxs : ∀ y ∈ xs, eqIgnoreAsciiCase (ops.name y) nm = false :=
        fun y hy => hall y (List.mem_cons_of_mem x hy)
      simp [configureMatch, hx, ih hxs]

/-- C2 witness: a header naming only the unknown extension `bar` leaves a
singleton extension list untouched. -/
theorem unsolicited_extension_skipped_witness :
    configureMatch trivExtOps (str "bar") [] [()] = .ok [()] :=
  (unsolicited_extension_skipped trivExtOps clientStateA [] respFoo 0).2
    (str "bar") [] [()] (by decide)

/-- C2 counterexample: a 101 response carrying the header
`Sec-WebSocket-Extensions: foo`, although the client offered no
extensions, is decoded successfully (it does not fail with
`UnsolicitedExtension`). -/
theorem unsolicited_extension_counterexample :
    decode_response trivExtOps clientStateA [] respFoo 0
      = .ok (Parsing.Done (ServerResponse.Accepted none) 0, clientStateA, []) := by
  decide

/-- C1: with a parsed 101 response whose `Upgrade` and `Connection` checks
pass and whose first `Sec-WebSocket-Accept` header is `hdr`,
`decode_response` fails with `InvalidSecWebSocketAccept` exactly when
`hdr`'s value differs from `base64(sha1(nonce ++ magic))`; the server's
accept response carries a `Sec-WebSocket-Accept` header computed the same
way from the client's key; and the RFC 6455 test vector holds. -/
theorem accept_key_spec {σ : Type} (ops : ExtOps σ) (self : ClientState σ) (buf : List Nat)
    (r : HttpResponse) (off : Nat) (hdr : HHeader)
    (hv : r.version = some 1) (hc : r.code = some 101)
    (hu : expect_ascii_header r.headers (str "Upgrade") (str "websocket") = .ok ())
    (hcn : expect_ascii_header r.headers (str "Connection") (str "upgrade") = .ok ())
    (hacc : findFirstHeader r.headers (str "Sec-WebSocket-Accept") = some hdr) :
    (decode_response ops self buf r off = .error HandshakeError.InvalidSecWebSocketAccept
       ↔ hdr.value ≠ acceptValue self.nonce)
  ∧ (∀ (version : List Nat) (reasonOf : Nat → Option (List Nat)) (srv : ServerState σ)
       (key : List Nat) (proto : Option (List Nat)),
       ∃ pre post,
         encode_response ops version reasonOf srv (SResponse.Accept key proto)
           = pre ++ (str "\r\nSec-WebSocket-Accept: " ++ acceptValue key) ++ post)
  ∧ acceptValue sampleNonce = sampleAccept := by
  refine ⟨?_, ?_, ?_⟩
  · have hstart : decode_response ops self buf r off = decodeAccepted ops self buf r off := by
      simp [decode_response, hv, hc]
    rw [hstart]
    unfold decodeAccepted
    simp only [hu, hcn, with_first_header, hacc]
    by_cases heq : acceptValue self.nonce = hdr.value
    · rw [if_neg (not_not_intro heq)]
      constructor
      · intro h
        exfalso
        cases h5 : processExtensionHeaders ops self.extensions r.headers with
        | error e =>
          simp only [h5] at h
          injection h with he
          subst he
          rcases processExtensionHeaders_error _ _ _ _ h5 with h7 | h7 <;> simp at h7
        | ok exts2 =>
          simp only [h5] at h
          cases h6 : findFirstHeader r.headers SEC_WEBSOCKET_PROTOCOL with
          | none => simp only [h6] at h; simp at h
          | some tp =>
            simp only [h6] at h
            cases h7 : self.protocols.find? (fun x => x == tp.value) with
            | none => simp only [h7] at h; simp at h
            | some p => simp only [h7] at h; simp at h
      · intro h
        exact absurd heq.symm h
    · rw [if_pos heq]
      constructor
      · intro _ hx
        exact heq hx.symm
      · intro _
        rfl
  · intro version reasonOf srv key proto
    refine ⟨str "HTTP/1.1 101 Switching Protocols" ++ str "\r\nServer: soketto-" ++ version ++
        str "\r\nUpgrade: websocket\r\nConnection: upgrade",
      (match proto with
       | some p => str "\r\nSec-WebSocket-Protocol: " ++ p
       | none => []) ++
        append_extensions ops (srv.extensions.filter ops.isEnabled) ++ str "\r\n\r\n", ?_⟩
    simp [encode_response, List.append_assoc]
  · decide

/-- C1 witness: a concrete 101 response with a wrong accept value fails
with `InvalidSecWebSocketAccept`. -/
theorem accept_key_spec_witness :
    decode_response trivExtOps clientStateA [] respBadAccept 0
      = .error HandshakeError.InvalidSecWebSocketAccept :=
  (accept_key_spec trivExtOps clientStateA [] respBadAccept 0
      { name := str "Sec-WebSocket-Accept", value := str "AAAA" }
      rfl rfl (by decide) (by decide) (by decide)).1.mpr (by decide)

theorem decodeAccepted_ok_shape {σ : Type} (ops : ExtOps σ) (self : ClientState σ)
    (buf : List Nat) (r : HttpResponse) (off : Nat)
    (p : Parsing ServerResponse) (s2 : ClientState σ) (b2 : List Nat)
    (h : decodeAccepted ops self buf r off = .ok (p, s2, b2)) :
    (∃ proto, p = Parsing.Done (ServerResponse.Accepted proto) 0) ∧ b2 = buf.drop off := by
  unfold decodeAccepted at h
  cases h1 : expect_ascii_header r.headers (str "Upgrade") (str "websocket") with
  | error e => simp only [h1] at h; simp at h
  | ok u =>
    simp only [h1] at h
    cases h2 : expect_ascii_header r.headers (str "Connection") (str "upgrade") with
    | error e => simp only [h2] at h; simp at h
    | ok u2 =>
      simp only [h2, with_first_header] at h
      cases h3 : findFirstHeader r.headers (str "Sec-WebSocket-Accept") with
      | none => simp only [h3] at h; simp at h
      | some hh =>
        simp only [h3] at h
        by_cases h4 : acceptValue self.nonce ≠ hh.value
        · rw [if_pos h4] at h; simp at h
        · rw [if_neg h4] at h
          cases h5 : processExtensionHeaders ops self.extensions r.headers with
          | error e => simp only [h5] at h; simp at h
          | ok exts2 =>
            simp only [h5] at h
            cases h6 : findFirstHeader r.headers SEC_WEBSOCKET_PROTOCOL with
            | none =>
              simp only [h6, Except.ok.injEq, Prod.mk.injEq] at h
              exact ⟨⟨none, h.1.symm⟩, h.2.2.symm⟩
            | some tp =>
              simp only [h6] at h
              cases h7 : self.protocols.find? (fun x => x == tp.value) with
              | none => simp only [h7] at h; simp at h
              | some pr =>
                simp only [h7, Except.ok.injEq, Prod.mk.injEq] at h
                exact ⟨⟨some pr, h.1.symm⟩, h.2.2.symm⟩

/-- C3 (amended): whenever `decode_response` completes with `Done`, the
parsed prefix has been chopped off the buffer; the `Done` offset equals
the byte count consumed by the HTTP parse for redirect and rejected
responses, but is 0 for accepted responses (whose prefix was already
split off). -/
theorem done_offset_spec {σ : Type} (ops : ExtOps σ) (self : ClientState σ)
    (buf : List Nat) (r : HttpResponse) (off : Nat)
    (v : ServerResponse) (o : Nat) (self2 : ClientState σ) (buf2 : List Nat)
    (h : decode_response ops self buf r off = .ok (Parsing.Done v o, self2, buf2)) :
    buf2 = buf.drop off
  ∧ (∀ sc loc, v = ServerResponse.Redirect sc loc → o = off)
  ∧ (∀ c, v = ServerResponse.Rejected c → o = off)
  ∧ (∀ p, v = ServerResponse.Accepted p → o = 0) := by
  unfold decode_response at h
  by_cases hv : r.version ≠ some 1
  · rw [if_pos hv] at h; simp at h
  · rw [if_neg hv] at h
    cases hcode : r.code with
    | none =>
      simp only [hcode, Except.ok.injEq, Prod.mk.injEq, Parsing.Done.injEq] at h
      obtain ⟨⟨hval, hoff⟩, _, hbuf⟩ := h
      subst hval
      refine ⟨hbuf.symm, ?_, ?_, ?_⟩
      · intro sc loc hc; cases hc
      · intro c hc; exact hoff.symm
      · intro p hc; cases hc
    | some c =>
      simp only [hcode] at h
      by_cases h101 : c = 101
      · rw [if_pos h101] at h
        obtain ⟨⟨proto, hp⟩, hb⟩ := decodeAccepted_ok_shape ops self buf r off _ _ _ h
        cases hp
        refine ⟨hb, ?_, ?_, ?_⟩
        · intro sc loc hc; cases hc
        · intro c2 hc; cases hc
        · intro p hc; rfl
      · rw [if_neg h101] at h
        by_cases hred : isRedirectCode c = true
        · rw [if_pos hred] at h
          unfold with_first_header at h
          cases hloc : findFirstHeader r.headers (str "Location") with
          | none => simp only [hloc] at h; simp at h
          | some hh =>
            simp only [hloc] at h
            cases hdec : utf8Decode hh.value with
            | none => simp only [hdec] at h; simp at h
            | some l =>
              simp only [hdec, Except.ok.injEq, Prod.mk.injEq, Parsing.Done.injEq] at h
              obtain ⟨⟨hval, hoff⟩, _, hbuf⟩ := h
              subst hval
              refine ⟨hbuf.symm, ?_, ?_, ?_⟩
              · intro sc loc hc; exact hoff.symm
              · intro c2 hc; cases hc
              · intro p hc; cases hc
        · rw [if_neg hred] at h
          simp only [Except.ok.injEq, Prod.mk.injEq, Parsing.Done.injEq] at h
          obtain ⟨⟨hval, hoff⟩, _, hbuf⟩ := h
          subst hval
          refine ⟨hbuf.symm, ?_, ?_, ?_⟩
          · intro sc loc hc; cases hc
          · intro c2 hc; exact hoff.symm
          · intro p hc; cases hc

/-- C3 witness: a rejected 404 response parsed after consuming 42 bytes
reports offset 42. -/
theorem done_offset_spec_witness :
    decode_response trivExtOps clientStateA [] { version := some 1, code := some 404, headers := [] } 42
      = .ok (Parsing.Done (ServerResponse.Rejected 404) 42, clientStateA, [])
  ∧ (42 : Nat) = 42 := by
  refine ⟨by decide, ?_⟩
  exact ((done_offset_spec trivExtOps clientStateA []
    { version := some 1, code := some 404, headers := [] } 42
    (ServerResponse.Rejected 404) 42 clientStateA [] (by decide)).2.2.1 404 rfl).symm ▸ rfl

/-- C3 counterexample: an accepted response whose HTTP parse consumed 70
bytes is returned with `Done` offset 0, not 70. -/
theorem done_offset_counterexample :
    decode_response trivExtOps clientStateA [] respOk 70
      = .ok (Parsing.Done (ServerResponse.Accepted none) 0, clientStateA, [])
  ∧ (0 : Nat) ≠ 70 := by
  exact ⟨by decide, by decide⟩

/-- C7: for a complete HTTP/1.1 response, the redirect codes are exactly
301, 302, 303, 307, 308; such a response yields
`Redirect (status, location)` from the first `Location` header, failing
with `HeaderNotFound` if it is absent; every other non-101 status yields
`Rejected code`; and a 301 response with `Location: /x` yields
`Redirect 301 "/x"`. -/
theorem redirect_spec {σ : Type} (ops : ExtOps σ) (self : ClientState σ) (buf : List Nat)
    (r : HttpResponse) (off : Nat) (hv : r.version = some 1) :
    (∀ c : Nat, isRedirectCode c = true ↔ (c = 301 ∨ c = 302 ∨ c = 303 ∨ c = 307 ∨ c = 308))
  ∧ (∀ c, r.code = some c → isRedirectCode c = true →
      (∀ hdr l, findFirstHeader r.headers (str "Location") = some hdr →
        utf8Decode hdr.value = some l →
        decode_response ops self buf r off
          = .ok (Parsing.Done (ServerResponse.Redirect c l) off, self, buf.drop off))
    ∧ (findFirstHeader r.headers (str "Location") = none →
        decode_response ops self buf r off
          = .error (HandshakeError.HeaderNotFound (str "Location"))))
  ∧ (∀ c, r.code = some c → c ≠ 101 → isRedirectCode c = false →
      decode_response ops self buf r off
        = .ok (Parsing.Done (ServerResponse.Rejected c) off, self, buf.drop off))
  ∧ decode_response trivExtOps clientStateA [] resp301 5
      = .ok (Parsing.Done (ServerResponse.Redirect 301 (str "/x")) 5, clientStateA, []) := by
  refine ⟨?_, ?_, ?_, by decide⟩
  · intro c
    simp [isRedirectCode]
    omega
  · intro c hc hred
    have h101 : c ≠ 101 := by
      intro he
      subst he
      simp [isRedirectCode] at hred
    constructor
    · intro hdr l hloc hdec
      simp [decode_response, hv, hc, h101, hred, with_first_header, hloc, hdec]
    · intro hloc
      simp [decode_response, hv, hc, h101, hred, with_first_header, hloc]
  · intro c hc h101 hred
    simp [decode_response, hv, hc, h101, hred]

/-- C7 witness: the 301 response with `Location: /x` decoded at offset 0. -/
theorem redirect_spec_witness :
    decode_response trivExtOps clientStateA [] resp301 0
      = .ok (Parsing.Done (ServerResponse.Redirect 301 (str "/x")) 0, clientStateA, []) :=
  ((redirect_spec trivExtOps clientStateA [] resp301 0 rfl).2.1 301 rfl (by decide)).1
    { name := str "Location", value := str "/x" } (str "/x") (by decide) (by decide)

theorem eahFold_match_absorb (ours : List Nat) (l : List HHeader) :
    l.foldl (eahStep ours) (.ok HState.Match) = .ok HState.Match := by
  induction l with
  | nil => rfl
  | cons h t ih => simpa [List.foldl_cons, eahStep] using ih

theorem eahFold_valid (ours : List Nat) (l : List HHeader)
    (hval : ∀ h ∈ l, utf8Valid h.value = true) (st : HState) (hst : st ≠ HState.Match) :
    l.foldl (eahStep ours) (.ok st)
      = if l.any (fun h => match utf8Decode h.value with
                           | some cps => valueHasToken ours cps
                           | none => false) then .ok HState.Match
        else if l.isEmpty then .ok st else .ok HState.Name := by
  induction l generalizing st with
  | nil => simp
  | cons h t ih =>
    have hh := hval h (List.mem_cons_self h t)
    obtain ⟨cps, hcps⟩ := Option.isSome_iff_exists.mp hh
    have hstep : eahStep ours (.ok st) h
        = if valueHasToken ours cps then .ok HState.Match else .ok HState.Name := by
      cases st with
      | Init => simp [eahStep, hcps]
      | Name => simp [eahStep, hcps]
      | Match => exact absurd rfl hst
    simp only [List.foldl_cons, hstep]
    by_cases htok : valueHasToken ours cps = true
    · rw [if_pos htok, eahFold_match_absorb]
      have hany : (h :: t).any (fun h => match utf8Decode h.value with
          | some cps => valueHasToken ours cps
          | none => false) = true := by
        simp [List.any_cons, hcps, htok]
      rw [if_pos hany]
    · rw [if_neg htok,
        ih (fun y hy => hval y (List.mem_cons_of_mem h hy)) HState.Name (by simp)]
      by_cases hany : t.any (fun h => match utf8Decode h.value with
          | some cps => valueHasToken ours cps
          | none => false) = true
      · rw [if_pos hany]
        have : (h :: t).any (fun h => match utf8Decode h.value with
            | some cps => valueHasToken ours cps
            | none => false) = true := by
          simp [List.any_cons, hany]
        rw [if_pos this]
      · rw [if_neg hany]
        have hanyc : (h :: t).any (fun h => match utf8Decode h.value with
            | some cps => valueHasToken ours cps
            | none => false) = false := by
          simp only [List.any_cons, Bool.or_eq_false_iff]
          constructor
          · simp only [hcps]
            exact Bool.eq_false_iff.mpr htok
          · simpa using hany
        rw [hanyc]
        simp

theorem specTokenPresent_filter (headers : List HHeader) (name ours : List Nat) :
    specTokenPresent headers name ours
      = (headers.filter (fun h => eqIgnoreAsciiCase h.name name)).any
          (fun h => match utf8Decode h.value with
                    | some cps => valueHasToken ours cps
                    | none => false) := by
  unfold specTokenPresent
  induction headers with
  | nil => rfl
  | cons h t ih =>
    simp only [List.filter_cons]
    by_cases hn : eqIgnoreAsciiCase h.name name = true
    · rw [if_pos hn, List.any_cons, List.any_cons, hn, ih]
      simp [valueHasToken]
    · have hnf : eqIgnoreAsciiCase h.name name = false := Bool.eq_false_iff.mpr hn
      rw [if_neg hn, List.any_cons, hnf, ih]
      simp

/-- C4 (amended): provided every header whose name matches has a valid
UTF-8 value, `expect_ascii_header` succeeds exactly when some matching
header contains the expected comma-split, whitespace-trimmed,
case-insensitive token; it fails with `HeaderNotFound` when no header of
that name exists and with `UnexpectedHeader` when such headers exist but
none contains the token.  (A matching header with a non-UTF-8 value can
produce a `Utf8` error instead.) -/
theorem expect_ascii_header_spec (headers : List HHeader) (name ours : List Nat)
    (hval : ∀ h ∈ headers, eqIgnoreAsciiCase h.name name = true → utf8Valid h.value = true) :
    (expect_ascii_header headers name ours = .ok ()
       ↔ specTokenPresent headers name ours = true)
  ∧ (hasHeaderNamed headers name = false →
      expect_ascii_header headers name ours = .error (HandshakeError.HeaderNotFound name))
  ∧ (hasHeaderNamed headers name = true → specTokenPresent headers name ours = false →
      expect_ascii_header headers name ours = .error (HandshakeError.UnexpectedHeader name)) := by
  have hval2 : ∀ h ∈ headers.filter (fun h => eqIgnoreAsciiCase h.name name),
      utf8Valid h.value = true := by
    intro h hm
    rw [List.mem_filter] at hm
    exact hval h hm.1 hm.2
  have hfold := eahFold_valid ours
    (headers.filter (fun h => eqIgnoreAsciiCase h.name name)) hval2 HState.Init (by simp)
  have hspec := specTokenPresent_filter headers name ours
  refine ⟨?_, ?_, ?_⟩
  · constructor
    · intro h
      by_contra hnp
      have hnp2 : specTokenPresent headers name ours = false := by
        revert hnp; cases specTokenPresent headers name ours <;> simp
      rw [hspec] at hnp2
      rw [expect_ascii_header] at h
      rw [hfold, hnp2] at h
      by_cases he : (headers.filter (fun h => eqIgnoreAsciiCase h.name name)).isEmpty = true
      · simp [he] at h
      · simp [he] at h
    · intro h
      rw [hspec] at h
      rw [expect_ascii_header, hfold, h]
      rfl
  · intro hnone
    have hemp : (headers.filter (fun h => eqIgnoreAsciiCase h.name name)).isEmpty = true := by
      rw [List.isEmpty_iff, List.filter_eq_nil_iff]
      intro a ha hc
      rw [hasHeaderNamed] at hnone
      have h2 : headers.any (fun h => eqIgnoreAsciiCase h.name name) = true :=
        List.any_eq_true.mpr ⟨a, ha, hc⟩
      rw [hnone] at h2
      cases h2
    have hany : (headers.filter (fun h => eqIgnoreAsciiCase h.name name)).any
        (fun h => match utf8Decode h.value with
                  | some cps => valueHasToken ours cps
                  | none => false) = false := by
      rw [List.isEmpty_iff] at hemp
      rw [hemp]
      rfl
    rw [expect_ascii_header, hfold, hany, if_neg (by simp), if_pos hemp]
  · intro hsome hnp
    rw [hspec] at hnp
    have hne : (headers.filter (fun h => eqIgnoreAsciiCase h.name name)).isEmpty = false := by
      rw [hasHeaderNamed, List.any_eq_true] at hsome
      obtain ⟨a, ha, hc⟩ := hsome
      cases hl : headers.filter (fun h => eqIgnoreAsciiCase h.name name) with
      | nil =>
        rw [List.filter_eq_nil_iff] at hl
        exact absurd hc (hl a ha)
      | cons x xs => rfl
    rw [expect_ascii_header, hfold, hnp, if_neg (by simp), if_neg (by simp [hne])]

/-- C4 witness: the `Upgrade: websocket` header of the sample response
passes the check. -/
theorem expect_ascii_header_spec_witness :
    expect_ascii_header okHeaders (str "Upgrade") (str "websocket") = .ok () :=
  (expect_ascii_header_spec okHeaders (str "Upgrade") (str "websocket") (by decide)).1.mpr
    (by decide)

/-- C4 counterexample: a matching header with the non-UTF-8 value `0xFF`
makes the check fail with `Utf8`, although the claim requires
`UnexpectedHeader` whenever headers of the name exist and none contains
the token. -/
theorem expect_ascii_header_counterexample :
    expect_ascii_header [{ name := str "Upgrade", value := [255] }] (str "Upgrade")
        (str "websocket") = .error HandshakeError.Utf8
  ∧ hasHeaderNamed [{ name := str "Upgrade", value := [255] }] (str "Upgrade") = true
  ∧ specTokenPresent [{ name := str "Upgrade", value := [255] }] (str "Upgrade")
      (str "websocket") = false
  ∧ HandshakeError.Utf8 ≠ HandshakeError.UnexpectedHeader (str "Upgrade") := by
  exact ⟨by decide, by decide, by decide, by decide⟩

theorem protoFold_error_stable (supported : List (List Nat)) (l : List HHeader)
    (e : HandshakeError) :
    l.foldl (protoStep supported) (.error e) = .error e := by
  induction l with
  | nil => rfl
  | cons b t ih => simpa [List.foldl_cons, protoStep] using ih

theorem protoFold_ok (supported : List (List Nat)) (l : List HHeader) :
    ∀ (acc ps : List (List Nat)),
      l.foldl (protoStep supported) (.ok acc) = .ok ps →
      ps = acc ++ (l.filter (fun h =>
          (supported.find? (fun x => x == h.value)).isSome)).map
        (fun h => (utf8Decode h.value).getD []) := by
  induction l with
  | nil =>
    intro acc ps h
    injection h with h1
    simp [h1]
  | cons b t ih =>
    intro acc ps h
    simp only [List.foldl_cons, protoStep] at h
    by_cases hs : (supported.find? (fun x => x == b.value)).isSome = true
    · rw [if_pos hs] at h
      cases hd : utf8Decode b.value with
      | none =>
        rw [hd] at h
        rw [protoFold_error_stable] at h
        cases h
      | some cps =>
        rw [hd] at h
        have h2 := ih (acc ++ [cps]) ps h
        simp [h2, List.filter_cons, hs, hd]
    · rw [if_neg hs] at h
      have h2 := ih acc ps h
      have hs2 : (supported.find? (fun x => x == b.value)).isSome = false :=
        Bool.eq_false_iff.mpr hs
      simp [h2, List.filter_cons, hs2]

theorem collectProtocols_ok (supported : List (List Nat)) (headers : List HHeader)
    (ps : List (List Nat)) (h : collectProtocols supported headers = .ok ps) :
    ps = ((headers.filter (fun h => eqIgnoreAsciiCase h.name SEC_WEBSOCKET_PROTOCOL
            && (supported.find? (fun x => x == h.value)).isSome)).map
          (fun h => (utf8Decode h.value).getD [])) := by
  unfold collectProtocols at h
  have h2 := protoFold_ok supported
    (headers.filter (fun h => eqIgnoreAsciiCase h.name SEC_WEBSOCKET_PROTOCOL)) [] ps h
  rw [h2, List.nil_append, List.filter_filter]
  congr 1
  apply List.filter_congr
  intro a _
  exact Bool.and_comm _ _

/-- C6: a successfully decoded client request carries exactly those
`Sec-WebSocket-Protocol` header values that occur in the server's
supported set (in header order, omitting unsupported offers); offering
only unsupported protocols yields a request with no protocols and an
accept response without a `Sec-WebSocket-Protocol` header. -/
theorem request_protocols_spec {σ : Type} (ops : ExtOps σ) (self : ServerState σ)
    (r : HttpRequest) (off : Nat) (req : ClientRequest) (o : Nat) (st2 : ServerState σ)
    (h : decode_request ops self r off = .ok (Parsing.Done req o, st2)) :
    (req.protocols = ((r.headers.filter (fun h =>
        eqIgnoreAsciiCase h.name SEC_WEBSOCKET_PROTOCOL
          && (self.protocols.find? (fun x => x == h.value)).isSome)).map
        (fun h => (utf8Decode h.value).getD [])))
  ∧ (∀ v : List Nat, (self.protocols.find? (fun x => x == v)).isSome = true ↔ v ∈ self.protocols)
  ∧ decode_request trivExtOps serverStateChat reqV2 0
      = .ok (Parsing.Done { wsKey := sampleNonce, protocols := [] } 0, serverStateChat)
  ∧ containsSeq (encode_response trivExtOps (str "0.4.0") (fun _ => none) serverStateChat
        (SResponse.Accept sampleNonce none)) SEC_WEBSOCKET_PROTOCOL = false := by
  refine ⟨?_, ?_, by decide, by decide⟩
  · unfold decode_request at h
    by_cases hm : r.method ≠ some (str "GET")
    · rw [if_pos hm] at h; simp at h
    · rw [if_neg hm] at h
      by_cases hv : r.version ≠ some 1
      · rw [if_pos hv] at h; simp at h
      · rw [if_neg hv] at h
        unfold with_first_header at h
        cases h1 : findFirstHeader r.headers (str "Host") with
        | none => simp only [h1] at h; simp at h
        | some hosth =>
          simp only [h1] at h
          cases h2 : expect_ascii_header r.headers (str "Upgrade") (str "websocket") with
          | error e => simp only [h2] at h; simp at h
          | ok u2 =>
            simp only [h2] at h
            cases h3 : expect_ascii_header r.headers (str "Connection") (str "upgrade") with
            | error e => simp only [h3] at h; simp at h
            | ok u3 =>
              simp only [h3] at h
              cases h4 : expect_ascii_header r.headers (str "Sec-WebSocket-Version") (str "13") with
              | error e => simp only [h4] at h; simp at h
              | ok u4 =>
                simp only [h4] at h
                cases h5 : findFirstHeader r.headers (str "Sec-WebSocket-Key") with
                | none => simp only [h5] at h; simp at h
                | some keyh =>
                  simp only [h5] at h
                  cases h6 : processExtensionHeaders ops self.extensions r.headers with
                  | error e => simp only [h6] at h; simp at h
                  | ok exts2 =>
                    simp only [h6] at h
                    cases h7 : collectProtocols self.protocols r.headers with
                    | error e => simp only [h7] at h; simp at h
                    | ok ps =>
                      simp only [h7, Except.ok.injEq, Prod.mk.injEq,
                        Parsing.Done.injEq] at h
                      obtain ⟨⟨hreq, hoff⟩, hst⟩ := h
                      rw [← hreq]
                      exact collectProtocols_ok self.protocols r.headers ps h7
  · intro v
    constructor
    · intro hv
      obtain ⟨x, hfind⟩ := Option.isSome_iff_exists.mp hv
      have hmem := List.find?_some hfind
      have hx := List.mem_of_find?_eq_some hfind
      rw [beq_iff_eq] at hmem
      exact hmem ▸ hx
    · intro hv
      rcases hfind : self.protocols.find? (fun x => x == v) with _ | x
      · have := List.find?_eq_none.mp hfind v hv
        simp at this
      · rfl

/-- C6 witness: the concrete request offering only `v2` against a server
supporting only `chat` decodes with an empty protocol list, matching the
filter of its headers. -/
theorem request_protocols_spec_witness :
    ({ wsKey := sampleNonce, protocols := [] } : ClientRequest).protocols
      = ((reqV2.headers.filter (fun h =>
          eqIgnoreAsciiCase h.name SEC_WEBSOCKET_PROTOCOL
            && (serverStateChat.protocols.find? (fun x => x == h.value)).isSome)).map
          (fun h => (utf8Decode h.value).getD [])) :=
  (request_protocols_spec trivExtOps serverStateChat reqV2 0
    { wsKey := sampleNonce, protocols := [] } 0 serverStateChat (by decide)).1

end Soketto
